import Mathlib

/-!
Verification of the `yichengq/fx` repository fragments: the singleton
asynchronous task module (`modules/task/task.go`), the uhttp filter options
(`WithFilters` / `filtersFromCreateInfo`), and the `testutils` random-string
helper.

The Go code is shallowly embedded.  Package-level mutable state of the task
module (`_once`, `_asyncMod`, `_asyncModErr`, `_globalBackend`) becomes an
explicit `TaskState` record threaded through the functions; `sync.Once` becomes
the `onceDone` flag.  `TaskState.factoryRuns` and `TaskState.metricsSetups` are
ghost counters recording how many times the supplied `BackendCreateFunc` was
executed and how many times `SetupTaskMetrics` ran; they let us state
"the factory executes at most once" as arithmetic on the state.  Go's
`(T, error)` results become pairs with `Option Err`; a `nil` module is `none`;
a panic (the unchecked type assertion in `filtersFromCreateInfo`) is modelled
by an `Option` result whose `none` value marks the panic.  `rand.Intn(52)` is
modelled by an explicit random source `g : Nat → Fin 52` consumed at
successive indices.
-/

namespace Fx

/-- `service.Host`: an opaque handle, identified by a number. -/
abbrev Host := Nat

/-- Go `error` values, distinguished by identity. -/
abbrev Err := Nat

/-- `task.Backend`: `NopBackend` is the default no-op backend value the
registry starts with; `backend id` is any other backend instance. -/
inductive Backend where
  | NopBackend : Backend
  | backend (id : Nat) : Backend
deriving DecidableEq, Repr

/-- `uhttp.Filter`: an opaque filter value, identified by a number. -/
abbrev Filter := Nat

/-- A value stored in the untyped `Items map[string]interface{}` bag:
either a `[]Filter` slice or a value of any other dynamic type. -/
inductive ItemValue where
  | filters (fs : List Filter)
  | other (tag : Nat)
deriving DecidableEq, Repr

/-- `service.ModuleCreateInfo`: the fields the shown code touches are the
`Host` and the untyped `Items` bag (`none` models a `nil` map). -/
structure ModuleCreateInfo where
  host : Host
  items : Option (List (String × ItemValue))
deriving DecidableEq, Repr

/-- `modules.ModuleBase`, as built by `modules.NewModuleBase(name, host, roles)`. -/
structure ModuleBase where
  name : String
  host : Host
  roles : List String
deriving DecidableEq, Repr

/-- `task.AsyncModule`: the embedded `Backend` together with its `modBase`. -/
structure AsyncModule where
  backend : Backend
  modBase : ModuleBase
deriving DecidableEq, Repr

/-- `task.BackendCreateFunc`: `func(host service.Host) (Backend, error)`. -/
abbrev BackendCreateFunc := Host → Except Err Backend

/-- The package-level state of `modules/task/task.go`: the `sync.Once` flag,
the memoised `(_asyncMod, _asyncModErr)` pair, and `_globalBackend`.
`factoryRuns` and `metricsSetups` are ghost counters of the side effects. -/
structure TaskState where
  onceDone : Bool
  asyncMod : Option AsyncModule
  asyncModErr : Option Err
  globalBackend : Backend
  factoryRuns : Nat
  metricsSetups : Nat
deriving DecidableEq, Repr

/-- The state at process start: `_globalBackend = &NopBackend{}`, nothing
memoised, `_once` not fired. -/
def initialTaskState : TaskState :=
  { onceDone := false
    asyncMod := none
    asyncModErr := none
    globalBackend := Backend.NopBackend
    factoryRuns := 0
    metricsSetups := 0 }

/-- `task.GlobalBackend`: reads `_globalBackend` under the read lock. -/
def GlobalBackend (s : TaskState) : Backend :=
  s.globalBackend

/-- `task.newAsyncModule`: sets up metrics, runs the factory; on error returns
`(nil, err)` leaving `_globalBackend` untouched, on success swaps
`_globalBackend` under the write lock and returns the new `AsyncModule`. -/
def newAsyncModule (mi : ModuleCreateInfo) (createFunc : BackendCreateFunc)
    (s : TaskState) : TaskState × (Option AsyncModule × Option Err) :=
  let s1 := { s with metricsSetups := s.metricsSetups + 1,
                     factoryRuns := s.factoryRuns + 1 }
  match createFunc mi.host with
  | Except.error e => (s1, (none, some e))
  | Except.ok b =>
      ({ s1 with globalBackend := b },
       (some { backend := b
               modBase := { name := "task", host := mi.host, roles := [] } },
        none))

/-- `task.newAsyncModuleSingleton`: runs `newAsyncModule` under `_once.Do`,
memoising the result into `(_asyncMod, _asyncModErr)`, and returns the
memoised pair. -/
def newAsyncModuleSingleton (mi : ModuleCreateInfo)
    (createFunc : BackendCreateFunc) (s : TaskState) :
    TaskState × (Option AsyncModule × Option Err) :=
  if s.onceDone then
    (s, (s.asyncMod, s.asyncModErr))
  else
    let p := newAsyncModule mi createFunc s
    ({ p.1 with onceDone := true, asyncMod := p.2.1, asyncModErr := p.2.2 },
     p.2)

/-- `task.NewModule createFunc` returns the module-creation closure; applying
that closure to `mi` yields `([]service.Module{mod}, err)`. -/
def NewModule (createFunc : BackendCreateFunc) (mi : ModuleCreateInfo)
    (s : TaskState) : TaskState × (List (Option AsyncModule) × Option Err) :=
  let p := newAsyncModuleSingleton mi createFunc s
  (p.1, ([p.2.1], p.2.2))

/-- One call to the installation step: its `ModuleCreateInfo` and factory. -/
abbrev InstallCall := ModuleCreateInfo × BackendCreateFunc

/-- Run a sequence of calls to `newAsyncModuleSingleton`, collecting each
call's `(module, error)` result. -/
def runInstalls (cs : List InstallCall) (s : TaskState) :
    TaskState × List (Option AsyncModule × Option Err) :=
  match cs with
  | [] => (s, [])
  | c :: rest =>
      let p := newAsyncModuleSingleton c.1 c.2 s
      let q := runInstalls rest p.1
      (q.1, p.2 :: q.2)

/-- Run a sequence of calls to the closures produced by `NewModule`,
collecting each call's `([]Module, error)` result. -/
def runNewModules (cs : List (BackendCreateFunc × ModuleCreateInfo))
    (s : TaskState) :
    TaskState × List (List (Option AsyncModule) × Option Err) :=
  match cs with
  | [] => (s, [])
  | c :: rest =>
      let p := NewModule c.1 c.2 s
      let q := runNewModules rest p.1
      (q.1, p.2 :: q.2)

/-- A factory that succeeds with backend 7, for concrete evaluations. -/
def cfA : BackendCreateFunc := fun _ => Except.ok (Backend.backend 7)

/-- A factory that fails with error 3, for concrete evaluations. -/
def cfB : BackendCreateFunc := fun _ => Except.error 3

/-- A concrete `ModuleCreateInfo` on host 0 with a nil items bag. -/
def miA : ModuleCreateInfo := ⟨0, none⟩

/-- A concrete `ModuleCreateInfo` on host 1 with a nil items bag. -/
def miB : ModuleCreateInfo := ⟨1, none⟩

/-- The `uhttp` item-bag key `_filterKey = "uhttpFilter"`. -/
def _filterKey : String := "uhttpFilter"

/-- Go map lookup `l[k]` on the items bag ordered as an association list. -/
def lookupItems (l : List (String × ItemValue)) (k : String) : Option ItemValue :=
  match l with
  | [] => none
  | (k2, v2) :: rest => if k2 = k then some v2 else lookupItems rest k

/-- `mci.Items[k]` with its `ok` flag: a lookup on a `nil` map yields
nothing. -/
def lookupItem (items : Option (List (String × ItemValue))) (k : String) :
    Option ItemValue :=
  match items with
  | none => none
  | some l => lookupItems l k

/-- Go map assignment `l[k] = v`: replace the binding when the key is
present, extend the map otherwise. -/
def setItem (l : List (String × ItemValue)) (k : String) (v : ItemValue) :
    List (String × ItemValue) :=
  match l with
  | [] => [(k, v)]
  | (k2, v2) :: rest =>
      if k2 = k then (k, v) :: rest else (k2, v2) :: setItem rest k v

/-- `uhttp.filtersFromCreateInfo`: missing key yields the nil slice; a stored
`[]Filter` is returned; the unchecked type assertion `items.([]Filter)` on a
value of any other dynamic type panics, modelled as `none`. -/
def filtersFromCreateInfo (mci : ModuleCreateInfo) : Option (List Filter) :=
  match lookupItem mci.items _filterKey with
  | none => some []
  | some (ItemValue.filters fs) => some fs
  | some (ItemValue.other _) => none

/-- `uhttp.WithFilters fs` applied to a `ModuleCreateInfo`: reads the stored
filters (which may panic, the outer `none`), appends `fs`, allocates the
items map when it is `nil`, stores the combined slice, and returns a `nil`
error. -/
def WithFilters (fs : List Filter) (mci : ModuleCreateInfo) :
    Option (ModuleCreateInfo × Option Err) :=
  match filtersFromCreateInfo mci with
  | none => none
  | some stored =>
      let combined := stored ++ fs
      let items := mci.items.getD []
      some ({ mci with
                items := some (setItem items _filterKey
                  (ItemValue.filters combined)) },
            none)

/-- Apply a sequence of `WithFilters` options in order, propagating a
panic. -/
def applyWithFilters (fss : List (List Filter)) (mci : ModuleCreateInfo) :
    Option (ModuleCreateInfo × Option Err) :=
  match fss with
  | [] => some (mci, none)
  | fs :: rest =>
      match WithFilters fs mci with
      | none => none
      | some p => applyWithFilters rest p.1

/-- A bag holding a `[]Filter` under the filter key. -/
def mciF : ModuleCreateInfo :=
  ⟨0, some [("uhttpFilter", ItemValue.filters [5, 6])]⟩

/-- A bag holding a value of a different dynamic type under the filter key. -/
def mciO : ModuleCreateInfo := ⟨0, some [("uhttpFilter", ItemValue.other 9)]⟩

/-- `testutils.letterBytes`: the 52-letter alphabet of random strings. -/
def letterBytes : String :=
  "abcdefghijklmnopqrstuvwxyzABCDEFGHIJKLMNOPQRSTUVWXYZ"

/-- The characters of `letterBytes`, as indexed by `letterBytes[i]`. -/
def letters : List Char := letterBytes.data

/-- `testutils.randStringBytes`: builds an `n`-byte string whose byte `i` is
`letterBytes[rand.Intn(len(letterBytes))]`.  The random source is an
explicit stream `g` of values below 52, so the `getD` default is never
reached. -/
def randStringBytes (g : Nat → Fin 52) (n : Nat) : String :=
  String.mk ((List.range n).map (fun i => letters.getD (g i).val 'a'))

/-- `testutils.makeValidData`: defaults the service name to
`"test" + randStringBytes(10)` when none is supplied, then always sets
`owner` to `"test" + randStringBytes(10)` from the next random draws. -/
def makeValidData (g : Nat → Fin 52) (serviceName : Option String) :
    List (String × String) :=
  match serviceName with
  | none =>
      let nm := "test" ++ randStringBytes g 10
      let ow := "test" ++ randStringBytes (fun i => g (10 + i)) 10
      [("name", nm), ("owner", ow)]
  | some nm =>
      let ow := "test" ++ randStringBytes g 10
      [("name", nm), ("owner", ow)]

/-- Go map lookup on the string-valued test data. -/
def lookupData (l : List (String × String)) (k : String) : Option String :=
  match l with
  | [] => none
  | (k2, v) :: rest => if k2 = k then some v else lookupData rest k

/-- A concrete random stream that always draws index 0. -/
def g0 : Nat → Fin 52 := fun _ => 0

theorem singleton_done (mi : ModuleCreateInfo) (f : BackendCreateFunc)
    {s : TaskState} (h : s.onceDone = true) :
    newAsyncModuleSingleton mi f s = (s, (s.asyncMod, s.asyncModErr)) := by
  simp [newAsyncModuleSingleton, h]

theorem runInstalls_done {s : TaskState} (h : s.onceDone = true)
    (cs : List InstallCall) :
    runInstalls cs s = (s, cs.map (fun _ => (s.asyncMod, s.asyncModErr))) := by
  induction cs with
  | nil => simp [runInstalls]
  | cons c rest ih => simp [runInstalls, singleton_done c.1 c.2 h, ih]

/-- The outcome of the very first call to `newAsyncModuleSingleton`, as a
function of what the factory returns. -/
theorem singleton_init (mi : ModuleCreateInfo) (f : BackendCreateFunc) :
    newAsyncModuleSingleton mi f initialTaskState =
      match f mi.host with
      | Except.error e =>
          (⟨true, none, some e, Backend.NopBackend, 1, 1⟩, (none, some e))
      | Except.ok b =>
          (⟨true, some ⟨b, ⟨"task", mi.host, []⟩⟩, none, b, 1, 1⟩,
           (some ⟨b, ⟨"task", mi.host, []⟩⟩, none)) := by
  cases hf : f mi.host with
  | error e => simp [newAsyncModuleSingleton, newAsyncModule, initialTaskState, hf]
  | ok b => simp [newAsyncModuleSingleton, newAsyncModule, initialTaskState, hf]

/-- The outcome of the very first call to the installation step, as a function
of what the factory returns. -/
theorem runInstalls_init (mi : ModuleCreateInfo) (f : BackendCreateFunc)
    (rest : List InstallCall) :
    runInstalls ((mi, f) :: rest) initialTaskState =
      match f mi.host with
      | Except.error e =>
          (⟨true, none, some e, Backend.NopBackend, 1, 1⟩,
           (none, some e) :: rest.map (fun _ => (none, some e)))
      | Except.ok b =>
          (⟨true, some ⟨b, ⟨"task", mi.host, []⟩⟩, none, b, 1, 1⟩,
           (some ⟨b, ⟨"task", mi.host, []⟩⟩, none) ::
             rest.map (fun _ => (some ⟨b, ⟨"task", mi.host, []⟩⟩, none))) := by
  cases hf : f mi.host with
  | error e =>
      have h1 := singleton_init mi f
      rw [hf] at h1
      simp only [runInstalls, h1]
      rw [runInstalls_done rfl rest]
  | ok b =>
      have h1 := singleton_init mi f
      rw [hf] at h1
      simp only [runInstalls, h1]
      rw [runInstalls_done rfl rest]

theorem NewModule_done {s : TaskState} (h : s.onceDone = true)
    (f : BackendCreateFunc) (mi : ModuleCreateInfo) :
    NewModule f mi s = (s, ([s.asyncMod], s.asyncModErr)) := by
  simp [NewModule, singleton_done mi f h]

theorem runNewModules_done {s : TaskState} (h : s.onceDone = true)
    (cs : List (BackendCreateFunc × ModuleCreateInfo)) :
    runNewModules cs s =
      (s, cs.map (fun _ => ([s.asyncMod], s.asyncModErr))) := by
  induction cs with
  | nil => simp [runNewModules]
  | cons c rest ih => simp [runNewModules, NewModule_done h c.1 c.2, ih]

/-- The outcome of the very first call to a module-creation closure, as a
function of what the factory returns. -/
theorem runNewModules_init (f : BackendCreateFunc) (mi : ModuleCreateInfo)
    (rest : List (BackendCreateFunc × ModuleCreateInfo)) :
    runNewModules ((f, mi) :: rest) initialTaskState =
      match f mi.host with
      | Except.error e =>
          (⟨true, none, some e, Backend.NopBackend, 1, 1⟩,
           ([none], some e) :: rest.map (fun _ => ([none], some e)))
      | Except.ok b =>
          (⟨true, some ⟨b, ⟨"task", mi.host, []⟩⟩, none, b, 1, 1⟩,
           ([some ⟨b, ⟨"task", mi.host, []⟩⟩], none) ::
             rest.map (fun _ => ([some ⟨b, ⟨"task", mi.host, []⟩⟩], none))) := by
  cases hf : f mi.host with
  | error e =>
      have h1 := singleton_init mi f
      rw [hf] at h1
      simp only [runNewModules, NewModule, h1]
      rw [runNewModules_done rfl rest]
  | ok b =>
      have h1 := singleton_init mi f
      rw [hf] at h1
      simp only [runNewModules, NewModule, h1]
      rw [runNewModules_done rfl rest]

/-- C1: for every sequence of calls to the module-creation closures produced
by `NewModule`, the factory executes at most once, and every call returns the
same outcome as the first call — in particular, a call after a successful
first call returns the already-installed result and its own factory is
ignored. -/
theorem NewModule_factory_once_same_outcome
    (cs : List (BackendCreateFunc × ModuleCreateInfo)) :
    (runNewModules cs initialTaskState).1.factoryRuns ≤ 1 ∧
    ∀ r ∈ (runNewModules cs initialTaskState).2,
      (runNewModules cs initialTaskState).2.head? = some r := by
  cases cs with
  | nil =>
      refine ⟨Nat.zero_le 1, ?_⟩
      intro r hr
      simp [runNewModules] at hr
  | cons c rest =>
      obtain ⟨f, mi⟩ := c
      have h := runNewModules_init f mi rest
      cases hf : f mi.host with
      | error e =>
          simp only [hf] at h
          rw [h]
          refine ⟨Nat.le_refl 1, ?_⟩
          intro r hr
          rcases List.mem_cons.mp hr with h1 | h1
          · rw [h1]; rfl
          · obtain ⟨x, _, h2⟩ := List.mem_map.mp h1
            rw [← h2]; rfl
      | ok b =>
          simp only [hf] at h
          rw [h]
          refine ⟨Nat.le_refl 1, ?_⟩
          intro r hr
          rcases List.mem_cons.mp hr with h1 | h1
          · rw [h1]; rfl
          · obtain ⟨x, _, h2⟩ := List.mem_map.mp h1
            rw [← h2]; rfl

/-- Witness for C1 at a concrete two-call sequence with different factories. -/
theorem NewModule_factory_once_same_outcome_ex :
    (runNewModules [(cfA, miA), (cfB, miB)] initialTaskState).1.factoryRuns ≤ 1 ∧
    (runNewModules [(cfA, miA), (cfB, miB)] initialTaskState).2.head? =
      some ([some ⟨Backend.backend 7, ⟨"task", 0, []⟩⟩], none) :=
  ⟨(NewModule_factory_once_same_outcome [(cfA, miA), (cfB, miB)]).1,
   (NewModule_factory_once_same_outcome [(cfA, miA), (cfB, miB)]).2
     ([some ⟨Backend.backend 7, ⟨"task", 0, []⟩⟩], none) (by decide)⟩

/-- C2: before any successful installation (every install call so far returned
a nil module), `GlobalBackend` returns the default `NopBackend` value the
registry is initialized with — in particular it does so in the initial
state. -/
theorem GlobalBackend_default_before_success :
    GlobalBackend initialTaskState = Backend.NopBackend ∧
    ∀ cs : List InstallCall,
      (∀ r ∈ (runInstalls cs initialTaskState).2, r.1 = none) →
      GlobalBackend (runInstalls cs initialTaskState).1 = Backend.NopBackend := by
  refine ⟨rfl, ?_⟩
  intro cs hnone
  cases cs with
  | nil => rfl
  | cons c rest =>
      obtain ⟨mi, f⟩ := c
      have h := runInstalls_init mi f rest
      cases hf : f mi.host with
      | error e =>
          simp only [hf] at h
          rw [h]
          rfl
      | ok b =>
          simp only [hf] at h
          exfalso
          have hm : ((some ⟨b, ⟨"task", mi.host, []⟩⟩ : Option AsyncModule),
              (none : Option Err)) ∈
              (runInstalls ((mi, f) :: rest) initialTaskState).2 := by
            rw [h]
            exact List.mem_cons_self _ _
          have := hnone _ hm
          simp at this

/-- Witness for C2: a single failed install leaves `GlobalBackend` on the
default no-op backend. -/
theorem GlobalBackend_default_before_success_ex :
    GlobalBackend initialTaskState = Backend.NopBackend ∧
    GlobalBackend (runInstalls [(miA, cfB)] initialTaskState).1 =
      Backend.NopBackend :=
  ⟨GlobalBackend_default_before_success.1,
   GlobalBackend_default_before_success.2 [(miA, cfB)] (by decide)⟩

/-- C3: if the factory returns an error, `newAsyncModule` returns
`(nil, err)` and leaves the global backend reference unchanged — in
particular, if it was the no-op backend it remains the no-op backend. -/
theorem newAsyncModule_error_atomic (mi : ModuleCreateInfo)
    (f : BackendCreateFunc) (s : TaskState) (e : Err)
    (h : f mi.host = Except.error e) :
    (newAsyncModule mi f s).2 = (none, some e) ∧
    (newAsyncModule mi f s).1.globalBackend = s.globalBackend ∧
    (s.globalBackend = Backend.NopBackend →
      (newAsyncModule mi f s).1.globalBackend = Backend.NopBackend) := by
  simp [newAsyncModule, h]

/-- Witness for C3 at a failing factory on the initial state. -/
theorem newAsyncModule_error_atomic_ex :
    (newAsyncModule miA cfB initialTaskState).2 = (none, some 3) ∧
    (newAsyncModule miA cfB initialTaskState).1.globalBackend =
      Backend.NopBackend :=
  ⟨(newAsyncModule_error_atomic miA cfB initialTaskState 3 rfl).1,
   (newAsyncModule_error_atomic miA cfB initialTaskState 3 rfl).2.2 rfl⟩

/-- C4: after a first installation attempt whose factory failed with `e`,
every subsequent call to the installation step — with any factories —
returns the same `(nil, e)` outcome, and the factory execution count stays
at 1 (no retry). -/
theorem install_error_terminal (mi : ModuleCreateInfo) (f : BackendCreateFunc)
    (e : Err) (cs : List InstallCall) (h : f mi.host = Except.error e) :
    (runInstalls ((mi, f) :: cs) initialTaskState).2 =
      (none, some e) :: cs.map (fun _ => (none, some e)) ∧
    (runInstalls ((mi, f) :: cs) initialTaskState).1.factoryRuns = 1 := by
  have h1 := runInstalls_init mi f cs
  simp only [h] at h1
  rw [h1]
  exact ⟨rfl, rfl⟩

/-- Witness for C4: a failed install followed by a call with a succeeding
factory still returns the original error and runs no factory again. -/
theorem install_error_terminal_ex :
    (runInstalls [(miA, cfB), (miB, cfA)] initialTaskState).2 =
      [(none, some 3), (none, some 3)] ∧
    (runInstalls [(miA, cfB), (miB, cfA)] initialTaskState).1.factoryRuns =
      1 := by
  have h := install_error_terminal miA cfB 3 [(miB, cfA)] rfl
  simpa using h

/-- C5: once the first installation succeeds with backend `b`, every
subsequent `GlobalBackend` read — after any further sequence of install
calls — returns `b`, the installed backend; provided the installed backend
is not the default no-op value, the no-op backend is never observed again. -/
theorem install_success_permanent (mi : ModuleCreateInfo)
    (f : BackendCreateFunc) (b : Backend) (h : f mi.host = Except.ok b) :
    GlobalBackend (newAsyncModuleSingleton mi f initialTaskState).1 = b ∧
    (∀ cs : List InstallCall,
      GlobalBackend
        (runInstalls cs (newAsyncModuleSingleton mi f initialTaskState).1).1 =
        b) ∧
    (b ≠ Backend.NopBackend →
      ∀ cs : List InstallCall,
        GlobalBackend
          (runInstalls cs
            (newAsyncModuleSingleton mi f initialTaskState).1).1 ≠
          Backend.NopBackend) := by
  have h1 := singleton_init mi f
  simp only [h] at h1
  rw [h1]
  refine ⟨rfl, ?_, ?_⟩
  · intro cs
    rw [runInstalls_done rfl cs]
    rfl
  · intro hb cs
    rw [runInstalls_done rfl cs]
    exact hb

/-- Witness for C5: installing backend 7 then calling the installation step
again with a failing factory leaves `GlobalBackend` at backend 7. -/
theorem install_success_permanent_ex :
    GlobalBackend (newAsyncModuleSingleton miA cfA initialTaskState).1 =
      Backend.backend 7 ∧
    GlobalBackend
      (runInstalls [(miB, cfB)]
        (newAsyncModuleSingleton miA cfA initialTaskState).1).1 =
      Backend.backend 7 ∧
    GlobalBackend
      (runInstalls [(miB, cfB)]
        (newAsyncModuleSingleton miA cfA initialTaskState).1).1 ≠
      Backend.NopBackend :=
  ⟨(install_success_permanent miA cfA (Backend.backend 7) rfl).1,
   (install_success_permanent miA cfA (Backend.backend 7) rfl).2.1 [(miB, cfB)],
   (install_success_permanent miA cfA (Backend.backend 7) rfl).2.2 (by decide)
     [(miB, cfB)]⟩

/-- C6: in every state reachable by a sequence of install calls, the factory
ran at most once and the global backend reference is either the default
no-op backend or exactly the backend of the one successfully installed
module. -/
theorem registry_single_backend (cs : List InstallCall) :
    (runInstalls cs initialTaskState).1.factoryRuns ≤ 1 ∧
    ((runInstalls cs initialTaskState).1.globalBackend = Backend.NopBackend ∨
     ∃ m : AsyncModule,
       (runInstalls cs initialTaskState).1.asyncMod = some m ∧
       (runInstalls cs initialTaskState).1.globalBackend = m.backend ∧
       (runInstalls cs initialTaskState).1.asyncModErr = none) := by
  cases cs with
  | nil => exact ⟨Nat.zero_le 1, Or.inl rfl⟩
  | cons c rest =>
      obtain ⟨mi, f⟩ := c
      have h := runInstalls_init mi f rest
      cases hf : f mi.host with
      | error e =>
          simp only [hf] at h
          rw [h]
          exact ⟨Nat.le_refl 1, Or.inl rfl⟩
      | ok b =>
          simp only [hf] at h
          rw [h]
          exact ⟨Nat.le_refl 1,
                 Or.inr ⟨⟨b, ⟨"task", mi.host, []⟩⟩, rfl, rfl, rfl⟩⟩

/-- C9: the closure produced by `NewModule`, called in any reachable state,
returns a slice of exactly one element; when it returns an error, that one
element is the nil module. -/
theorem NewModule_one_element (f : BackendCreateFunc) (mi : ModuleCreateInfo)
    (cs : List InstallCall) :
    (NewModule f mi (runInstalls cs initialTaskState).1).2.1.length = 1 ∧
    (∀ e : Err,
      (NewModule f mi (runInstalls cs initialTaskState).1).2.2 = some e →
      (NewModule f mi (runInstalls cs initialTaskState).1).2.1 = [none]) := by
  refine ⟨rfl, ?_⟩
  intro e he
  cases cs with
  | nil =>
      have h1 := singleton_init mi f
      cases hf : f mi.host with
      | error e2 =>
          simp only [hf] at h1
          simp only [runInstalls, NewModule, h1]
      | ok b =>
          simp only [hf] at h1
          simp only [runInstalls, NewModule, h1] at he
          exact absurd he (by simp)
  | cons c rest =>
      obtain ⟨mi2, f2⟩ := c
      have h := runInstalls_init mi2 f2 rest
      cases hf : f2 mi2.host with
      | error e2 =>
          simp only [hf] at h
          rw [h]
          rw [NewModule_done rfl f mi]
      | ok b =>
          simp only [hf] at h
          rw [h] at he
          rw [NewModule_done rfl f mi] at he
          simp at he

/-- Witness for C9: a failing factory yields a one-element slice holding the
nil module next to the error. -/
theorem NewModule_one_element_ex :
    (NewModule cfB miA (runInstalls [] initialTaskState).1).2.1.length = 1 ∧
    (NewModule cfB miA (runInstalls [] initialTaskState).1).2.1 = [none] :=
  ⟨(NewModule_one_element cfB miA []).1,
   (NewModule_one_element cfB miA []).2 3 rfl⟩

theorem lookupItems_setItem (l : List (String × ItemValue)) (k : String)
    (v : ItemValue) : lookupItems (setItem l k v) k = some v := by
  induction l with
  | nil => simp [setItem, lookupItems]
  | cons p rest ih =>
      obtain ⟨k2, v2⟩ := p
      by_cases h : k2 = k
      · simp [setItem, lookupItems, h]
      · simp [setItem, lookupItems, h, ih]

theorem WithFilters_step (mci : ModuleCreateInfo) (old fs : List Filter)
    (h : filtersFromCreateInfo mci = some old) :
    WithFilters fs mci =
      some ({ mci with
                items := some (setItem (mci.items.getD []) _filterKey
                  (ItemValue.filters (old ++ fs))) },
            none) ∧
    filtersFromCreateInfo
      { mci with
          items := some (setItem (mci.items.getD []) _filterKey
            (ItemValue.filters (old ++ fs))) } = some (old ++ fs) := by
  constructor
  · simp [WithFilters, h]
  · simp [filtersFromCreateInfo, lookupItem, lookupItems_setItem]

/-- C7: `filtersFromCreateInfo` returns the nil slice when nothing is stored
under the filter key, returns the stored slice when the stored value has
dynamic type `[]Filter`, and panics (modelled as `none`) when a value of any
other dynamic type is stored. -/
theorem filtersFromCreateInfo_cases :
    (∀ mci : ModuleCreateInfo,
       lookupItem mci.items _filterKey = none →
       filtersFromCreateInfo mci = some []) ∧
    (∀ (mci : ModuleCreateInfo) (fs : List Filter),
       lookupItem mci.items _filterKey = some (ItemValue.filters fs) →
       filtersFromCreateInfo mci = some fs) ∧
    (∀ (mci : ModuleCreateInfo) (t : Nat),
       lookupItem mci.items _filterKey = some (ItemValue.other t) →
       filtersFromCreateInfo mci = none) := by
  refine ⟨?_, ?_, ?_⟩
  · intro mci h
    simp [filtersFromCreateInfo, h]
  · intro mci fs h
    simp [filtersFromCreateInfo, h]
  · intro mci t h
    simp [filtersFromCreateInfo, h]

/-- Witness for C7 on the three concrete bag shapes. -/
theorem filtersFromCreateInfo_cases_ex :
    filtersFromCreateInfo miA = some [] ∧
    filtersFromCreateInfo mciF = some [5, 6] ∧
    filtersFromCreateInfo mciO = none :=
  ⟨filtersFromCreateInfo_cases.1 miA rfl,
   filtersFromCreateInfo_cases.2.1 mciF [5, 6] (by decide),
   filtersFromCreateInfo_cases.2.2 mciO 9 (by decide)⟩

/-- C8: applying `WithFilters fs` appends `fs` after the filters already
stored in the bag, and applying a sequence of `WithFilters` options
accumulates all the filters in application order. -/
theorem WithFilters_appends :
    (∀ (mci : ModuleCreateInfo) (old fs : List Filter),
       filtersFromCreateInfo mci = some old →
       ∃ mci2 : ModuleCreateInfo,
         WithFilters fs mci = some (mci2, none) ∧
         filtersFromCreateInfo mci2 = some (old ++ fs)) ∧
    (∀ (fss : List (List Filter)) (mci : ModuleCreateInfo)
       (old : List Filter),
       filtersFromCreateInfo mci = some old →
       ∃ mci2 : ModuleCreateInfo,
         applyWithFilters fss mci = some (mci2, none) ∧
         filtersFromCreateInfo mci2 = some (old ++ fss.flatten)) := by
  constructor
  · intro mci old fs h
    obtain ⟨hw, hf⟩ := WithFilters_step mci old fs h
    exact ⟨_, hw, hf⟩
  · intro fss
    induction fss with
    | nil =>
        intro mci old h
        exact ⟨mci, rfl, by simpa using h⟩
    | cons fs rest ih =>
        intro mci old h
        obtain ⟨hw, hf⟩ := WithFilters_step mci old fs h
        obtain ⟨mci2, h2, h3⟩ := ih _ _ hf
        refine ⟨mci2, ?_, ?_⟩
        · simp [applyWithFilters, hw, h2]
        · simpa [List.append_assoc] using h3

/-- Witness for C8: appending `[7]` to a bag already holding `[5, 6]`. -/
theorem WithFilters_appends_ex :
    ∃ mci2 : ModuleCreateInfo,
      WithFilters [7] mciF = some (mci2, none) ∧
      filtersFromCreateInfo mci2 = some [5, 6, 7] :=
  WithFilters_appends.1 mciF [5, 6] [7] (by decide)

theorem letters_length : letters.length = 52 := by decide

theorem randStringBytes_length (g : Nat → Fin 52) (n : Nat) :
    (randStringBytes g n).length = n := by
  simp [randStringBytes, String.length]

theorem randStringBytes_mem (g : Nat → Fin 52) (n : Nat) :
    ∀ c ∈ (randStringBytes g n).data, c ∈ letters := by
  intro c hc
  simp only [randStringBytes, String.data] at hc
  obtain ⟨i, _, rfl⟩ := List.mem_map.mp hc
  have h52 : (g i).val < letters.length := by
    rw [letters_length]
    exact (g i).isLt
  rw [List.getD_eq_getElem letters 'a' h52]
  exact List.getElem_mem h52

/-- C10: for every random stream and every `n`, `randStringBytes` returns a
string of length exactly `n` all of whose characters come from the 52-letter
alphabet `letterBytes`; consequently the `owner` value of `makeValidData` is
always `"test"` followed by 10 random letters, hence has length 14 and
starts with `"test"`. -/
theorem randStringBytes_makeValidData_spec :
    (∀ (g : Nat → Fin 52) (n : Nat),
       (randStringBytes g n).length = n ∧
       ∀ c ∈ (randStringBytes g n).data, c ∈ letters) ∧
    (∀ (g : Nat → Fin 52) (sn : Option String),
       ∃ rest : String,
         lookupData (makeValidData g sn) "owner" = some ("test" ++ rest) ∧
         ("test" ++ rest).length = 14 ∧ rest.length = 10) := by
  constructor
  · intro g n
    exact ⟨randStringBytes_length g n, randStringBytes_mem g n⟩
  · intro g sn
    cases sn with
    | none =>
        refine ⟨randStringBytes (fun i => g (10 + i)) 10, ?_, ?_, ?_⟩
        · simp [makeValidData, lookupData]
        · rw [String.length_append, randStringBytes_length]
          decide
        · exact randStringBytes_length _ 10
    | some nm =>
        refine ⟨randStringBytes g 10, ?_, ?_, ?_⟩
        · simp [makeValidData, lookupData]
        · rw [String.length_append, randStringBytes_length]
          decide
        · exact randStringBytes_length g 10

/-- Witness for C10 on the constant random stream. -/
theorem randStringBytes_makeValidData_spec_ex :
    (randStringBytes g0 3).length = 3 ∧
    'a' ∈ (randStringBytes g0 3).data ∧ 'a' ∈ letters ∧
    (∃ rest : String,
      lookupData (makeValidData g0 none) "owner" = some ("test" ++ rest) ∧
      ("test" ++ rest).length = 14 ∧ rest.length = 10) :=
  ⟨(randStringBytes_makeValidData_spec.1 g0 3).1,
   by decide,
   (randStringBytes_makeValidData_spec.1 g0 3).2 'a' (by decide),
   randStringBytes_makeValidData_spec.2 g0 none⟩
